import Mathlib

/-!
Shallow embedding of the 0x.js subscription/reconciliation engine
(`ContractWrapper` in `src/contract_wrappers/contract_wrapper.ts`) and of the
kovan-faucets `RequestQueue`, together with proofs about their behaviour.

JavaScript objects used as maps (`this._filters`, `this._filterCallbacks`)
are modelled as insertion-ordered association lists: `obj[k] = v` overwrites
in place when the key exists and appends otherwise, `delete obj[k]` removes
the entry, and `_.keys` / `_.forEach` iterate in insertion order, exactly as
JS string-keyed objects do.

Callbacks are opaque: each is represented by a numeric identifier, and an
invocation is recorded as a `Dispatch` value (callback id, error argument,
event argument) appended to the list of dispatches an operation produced.
Thrown JS exceptions are modelled with `Except`.
-/

namespace ZeroEx

/-- Error values thrown by the engine.  `subscriptionNotFound` is
`ZeroExError.SubscriptionNotFound`, `noAbiDecoder` is
`InternalZeroExError.NoAbiDecoder`; `nodeUnavailable` / `malformedResponse`
stand for the ledger I/O failures; `typeError` models a JS TypeError from
invoking/dereferencing `undefined`; `dataTooShort` is the decoder failure. -/
inductive Err where
  | subscriptionNotFound
  | noAbiDecoder
  | nodeUnavailable
  | malformedResponse
  | typeError
  | dataTooShort
deriving DecidableEq, Repr

/-- A raw event record (`Web3.LogEntry`): only the fields the engine inspects
(address, topics, data); topics and data bytes are abstracted as `Nat`. -/
structure LogEntry where
  address : String
  topics : List Nat
  data : List Nat
deriving DecidableEq, Repr

/-- Modelled from the spec: a topic pattern of a `FilterSpec`
(`TopicPattern ∈ {Any, Exactly(value), OneOf(set of values)}`); the
`filterUtils` module that builds filters is not under `src/`. -/
inductive TopicPattern where
  | any
  | exactly (v : Nat)
  | oneOf (vs : List Nat)
deriving DecidableEq, Repr

/-- Modelled from the spec: a filter specification — optional exact address
plus an ordered sequence of topic patterns (`Web3.FilterObject`). -/
structure FilterSpec where
  address : Option String := none
  topics : List TopicPattern := []
deriving DecidableEq, Repr

/-- Modelled from the spec: the positional topic check of
`filterUtils.matchesFilter` — for every position `i` in the filter's topics,
the record must have a topic at `i` that the pattern accepts; positions
beyond the filter's length are unconstrained. -/
def topicsMatch : List TopicPattern → List Nat → Bool
  | [], _ => true
  | _ :: _, [] => false
  | p :: ps, t :: ts =>
    (match p with
     | .any => true
     | .exactly v => v == t
     | .oneOf vs => vs.contains t) && topicsMatch ps ts

/-- Modelled from the spec: `filterUtils.matchesFilter` (the module is not
under `src/`) — if the filter's address is set it must equal the record's
address case-insensitively, and every topic pattern must accept the record's
topic at its position. -/
def matchesFilter (log : LogEntry) (f : FilterSpec) : Bool :=
  (match f.address with
   | none => true
   | some a => a.toLower == log.address.toLower) && topicsMatch f.topics log.topics

/-- Modelled from the spec: an event descriptor of the decoder table, listing
how many parameters are indexed and the declared byte length of the
non-indexed payload. -/
structure EventDescriptor where
  indexedCount : Nat
  nonIndexedByteLen : Nat
deriving DecidableEq, Repr

/-- Modelled from the spec: the `AbiDecoder`'s registry, mapping a
`topics[0]` event signature to its event descriptor. -/
abbrev AbiDecoder := List (Nat × EventDescriptor)

/-- A possibly-decoded record: either the raw record tagged undecoded, or a
decoded event carrying the record plus its structured arguments. -/
inductive MaybeDecoded where
  | raw (log : LogEntry)
  | decoded (log : LogEntry) (indexedArgs : List Nat) (nonIndexedBytes : List Nat)
deriving DecidableEq, Repr

/-- Modelled from the spec: `AbiDecoder.tryToDecodeLogOrNoop` (the
`abi_decoder` module is not under `src/`) — look up `topics[0]`; if absent,
return the unmodified record tagged undecoded; if present, bind indexed
parameters from `topics[1..]` and unpack the non-indexed payload from
`data`, raising only when the data is shorter than the declared payload. -/
def abiTryToDecodeLogOrNoop (d : AbiDecoder) (log : LogEntry) : Except Err MaybeDecoded :=
  match log.topics.head? with
  | none => .ok (.raw log)
  | some sig =>
    match d.lookup sig with
    | none => .ok (.raw log)
    | some desc =>
      if log.data.length < desc.nonIndexedByteLen then .error .dataTooShort
      else .ok (.decoded log (log.topics.drop 1) (log.data.take desc.nonIndexedByteLen))

/-- The event argument of a subscriber callback: the (possibly decoded) log
plus the `isRemoved` flag the engine assigns. -/
structure LogEvent where
  log : MaybeDecoded
  isRemoved : Bool
deriving DecidableEq, Repr

/-- One recorded callback invocation: which callback ran and the
`(error, event)` pair it received. -/
structure Dispatch where
  callbackId : Nat
  error : Option Err
  event : Option LogEvent
deriving DecidableEq, Repr

/-- The mutable state of a `ContractWrapper`: the optional `_abiDecoder`,
the `_filters` and `_filterCallbacks` maps, whether `_blockAndLogStreamer`
is defined, and whether the `_blockAndLogStreamInterval` timer is active. -/
structure CWState where
  abiDecoder : Option AbiDecoder
  filters : List (String × FilterSpec)
  filterCallbacks : List (String × Nat)
  blockAndLogStreamer : Bool
  intervalActive : Bool
deriving DecidableEq, Repr

/-- JS `obj[k] = v`: overwrite in place when the key is present, append
otherwise. -/
def objSet {α : Type} (m : List (String × α)) (k : String) (v : α) : List (String × α) :=
  if (m.lookup k).isSome then m.map (fun p => if p.1 = k then (k, v) else p)
  else m ++ [(k, v)]

/-- JS `delete obj[k]`. -/
def objDelete {α : Type} (m : List (String × α)) (k : String) : List (String × α) :=
  m.filter (fun p => p.1 ≠ k)

/-- JS `_.keys(obj)`: the keys in insertion order. -/
def objKeys {α : Type} (m : List (String × α)) : List String :=
  m.map (fun p => p.1)

/-- The `ContractWrapper` constructor: empty maps, no streamer, no timer. -/
def initialState (abiDecoder : Option AbiDecoder) : CWState :=
  ⟨abiDecoder, [], [], false, false⟩

/-- `_startBlockAndLogStream`: creates the `BlockAndLogStreamer`, registers
the catch-all log filter, starts the async-excluding poll interval, and
subscribes the onLogAdded/onLogRemoved handlers. -/
def startBlockAndLogStream (s : CWState) : CWState :=
  { s with blockAndLogStreamer := true, intervalActive := true }

/-- `_stopBlockAndLogStream`: unsubscribes the streamer handlers (the source
casts `this._blockAndLogStreamer as BlockAndLogStreamer`, so a call with the
streamer undefined is a JS TypeError), clears the poll interval, and deletes
the streamer. -/
def stopBlockAndLogStream (s : CWState) : Except Err CWState :=
  if s.blockAndLogStreamer then
    .ok { s with blockAndLogStreamer := false, intervalActive := false }
  else .error .typeError

/-- `_unsubscribe(filterToken, err?)`: throws `SubscriptionNotFound` when the
token is not in `_filters`; when `err` is given, invokes the token's callback
with `(err, undefined)`; deletes the token from both maps; if `_filters` is
then empty, stops the block-and-log stream. -/
def _unsubscribe (s : CWState) (filterToken : String) (err : Option Err) :
    Except Err (CWState × List Dispatch) :=
  match s.filters.lookup filterToken with
  | none => .error .subscriptionNotFound
  | some _ =>
    match (match err with
           | none => Except.ok ([] : List Dispatch)
           | some e =>
             match s.filterCallbacks.lookup filterToken with
             | none => Except.error Err.typeError
             | some cb => Except.ok [⟨cb, some e, none⟩]) with
    | .error e => .error e
    | .ok ds =>
      if (objDelete s.filters filterToken).isEmpty then
        match stopBlockAndLogStream
            { s with filters := objDelete s.filters filterToken,
                     filterCallbacks := objDelete s.filterCallbacks filterToken } with
        | .error e => .error e
        | .ok s2 => .ok (s2, ds)
      else .ok ({ s with filters := objDelete s.filters filterToken,
                         filterCallbacks := objDelete s.filterCallbacks filterToken }, ds)

/-- `_subscribe(address, eventName, indexFilterValues, abi, callback)`: the
filter computed by `filterUtils.getFilter` and the fresh UUID token are taken
as parameters; starts the block-and-log stream when the streamer is
undefined, then registers the filter and the callback under the token. -/
def _subscribe (s : CWState) (filter : FilterSpec) (filterToken : String) (cb : Nat) :
    CWState × String :=
  let s1 := if s.blockAndLogStreamer then s else startBlockAndLogStream s
  ({ s1 with filters := objSet s1.filters filterToken filter,
             filterCallbacks := objSet s1.filterCallbacks filterToken cb }, filterToken)

/-- `_.each(filterTokens, filterToken => this._unsubscribe(filterToken, err?))`:
sequentially unsubscribe each token of the given snapshot, concatenating the
dispatches. -/
def unsubscribeMany (s : CWState) (toks : List String) (err : Option Err) :
    Except Err (CWState × List Dispatch) :=
  match toks with
  | [] => .ok (s, [])
  | t :: ts =>
    match _unsubscribe s t err with
    | .error e => .error e
    | .ok (s1, ds) =>
      match unsubscribeMany s1 ts err with
      | .error e => .error e
      | .ok (s2, ds2) => .ok (s2, ds ++ ds2)

/-- `unsubscribeAll()`: unsubscribe every token of `_filterCallbacks`
(snapshot taken before the loop), passing no error. -/
def unsubscribeAll (s : CWState) : Except Err (CWState × List Dispatch) :=
  unsubscribeMany s (objKeys s.filterCallbacks) none

/-- `_tryToDecodeLogOrNoop(log)`: throws `NoAbiDecoder` when `_abiDecoder`
is undefined, otherwise delegates to the decoder. -/
def _tryToDecodeLogOrNoop (s : CWState) (log : LogEntry) : Except Err MaybeDecoded :=
  match s.abiDecoder with
  | none => .error .noAbiDecoder
  | some d => abiTryToDecodeLogOrNoop d log

/-- The `_.forEach(this._filters, ...)` loop body of `_onLogStateChanged`:
for each filter the log matches, decode the log (a throw aborts the loop,
keeping the dispatches already made) and invoke the filter's callback with
`(null, {log: decodedLog, isRemoved})`. -/
def dispatchToFilters (s : CWState) (isRemoved : Bool) (log : LogEntry) :
    List (String × FilterSpec) → List Dispatch × Option Err
  | [] => ([], none)
  | (filterToken, f) :: rest =>
    if matchesFilter log f then
      match _tryToDecodeLogOrNoop s log with
      | .error e => ([], some e)
      | .ok decodedLog =>
        match s.filterCallbacks.lookup filterToken with
        | none => ([], some .typeError)
        | some cb =>
          match dispatchToFilters s isRemoved log rest with
          | (ds, e2) => (⟨cb, none, some ⟨decodedLog, isRemoved⟩⟩ :: ds, e2)
    else dispatchToFilters s isRemoved log rest

/-- `_onLogStateChanged(isRemoved, log)`: run the dispatch loop over the
current `_filters` map. -/
def _onLogStateChanged (s : CWState) (isRemoved : Bool) (log : LogEntry) :
    List Dispatch × Option Err :=
  dispatchToFilters s isRemoved log s.filters

/-- The streamer's onLogAdded handler, as bound in `_startBlockAndLogStream`:
`_onLogStateChanged.bind(this, isRemoved)` with `isRemoved = false` at bind
time. -/
def onLogAddedHandler (s : CWState) (log : LogEntry) : List Dispatch × Option Err :=
  _onLogStateChanged s false log

/-- The streamer's onLogRemoved handler, as bound in
`_startBlockAndLogStream` with `isRemoved = true` at bind time. -/
def onLogRemovedHandler (s : CWState) (log : LogEntry) : List Dispatch × Option Err :=
  _onLogStateChanged s true log

/-- The stream of `(isRemoved, log)` events `reconcileNewBlock` pushes
through the two handlers during one tick, processed in order until a handler
throws. -/
def dispatchEvents (s : CWState) : List (Bool × LogEntry) → List Dispatch × Option Err
  | [] => ([], none)
  | (isRemoved, log) :: rest =>
    match _onLogStateChanged s isRemoved log with
    | (ds, some e) => (ds, some e)
    | (ds, none) =>
      match dispatchEvents s rest with
      | (ds2, e2) => (ds ++ ds2, e2)

/-- `_reconcileBlockAsync()`: fetch the latest block (outcome `fetchHead`);
if the streamer is still defined, run `reconcileNewBlock`, whose per-block
log fetches and handler dispatches are abstracted by `streamEvents` — an
error there, or a handler throw, is caught by the surrounding `catch`, which
unsubscribes every token of `_filterCallbacks` with the error.  Dispatches
made before a mid-tick throw persist. -/
def _reconcileBlockAsync (s : CWState) (fetchHead : Except Err Unit)
    (streamEvents : Except Err (List (Bool × LogEntry))) :
    Except Err (CWState × List Dispatch) :=
  match fetchHead with
  | .error e => unsubscribeMany s (objKeys s.filterCallbacks) (some e)
  | .ok _ =>
    if s.blockAndLogStreamer then
      match streamEvents with
      | .error e => unsubscribeMany s (objKeys s.filterCallbacks) (some e)
      | .ok evs =>
        match dispatchEvents s evs with
        | (ds, none) => .ok (s, ds)
        | (ds, some e) =>
          match unsubscribeMany s (objKeys s.filterCallbacks) (some e) with
          | .error e2 => .error e2
          | .ok (s2, ds2) => .ok (s2, ds ++ ds2)
    else .ok (s, [])

/-- Registry coherence: `_filters` and `_filterCallbacks` hold exactly the
same keys, in the same insertion order. -/
abbrev Coherent (s : CWState) : Prop :=
  objKeys s.filters = objKeys s.filterCallbacks

/-- The Subscription Manager state-machine invariant: the streamer is defined
iff at least one subscription is registered, and the poll timer is active iff
the streamer is defined. -/
abbrev StreamInv (s : CWState) : Prop :=
  (s.blockAndLogStreamer = true ↔ s.filters ≠ []) ∧
  s.intervalActive = s.blockAndLogStreamer

/-- Well-formedness of a reachable `ContractWrapper` state: coherent maps
with duplicate-free keys, satisfying the stream invariant. -/
abbrev WF (s : CWState) : Prop :=
  Coherent s ∧ (objKeys s.filters).Nodup ∧ StreamInv s

/-- Modelled from the spec: an event of the timer machinery of
`intervalUtils.setAsyncExcludingInterval` (the `@0xproject/utils` module is
not under `src/`) — either the periodic timer fires, or an in-flight tick's
asynchronous work completes. -/
inductive TickEvent where
  | timerFires
  | tickCompletes
deriving DecidableEq, Repr

/-- Modelled from the spec: the number of ticks in flight after a sequence of
timer events, starting from `n` in flight.  A timer fire starts a tick only
when none is in flight; a fire during an in-flight tick is skipped rather
than queued; a completion ends the in-flight tick. -/
def inFlightAfter : Nat → List TickEvent → Nat
  | n, [] => n
  | n, .timerFires :: es => inFlightAfter (if n = 0 then 1 else n) es
  | n, .tickCompletes :: es => inFlightAfter (n - 1) es

/-- `MAX_QUEUE_SIZE` of the kovan-faucets request queue. -/
def MAX_QUEUE_SIZE : Nat := 500

/-- The kovan-faucets `RequestQueue`: the pending recipient addresses, head
first. -/
structure RequestQueue where
  queue : List String
deriving DecidableEq, Repr

/-- `RequestQueue.size()`. -/
def RequestQueue.size (q : RequestQueue) : Nat := q.queue.length

/-- `RequestQueue.isFull()`: `size() >= MAX_QUEUE_SIZE`. -/
def RequestQueue.isFull (q : RequestQueue) : Bool :=
  decide (q.size ≥ MAX_QUEUE_SIZE)

/-- `RequestQueue.add(recipientAddress)`: return `false` when full, otherwise
push the address at the tail and return `true`. -/
def RequestQueue.add (q : RequestQueue) (recipientAddress : String) :
    RequestQueue × Bool :=
  if q.isFull then (q, false)
  else ({ queue := q.queue ++ [recipientAddress] }, true)

/-- A wrapper state with one catch-all subscription but no `_abiDecoder`
registered (`new ContractWrapper(web3Wrapper, networkId)` with the optional
decoder omitted, after one subscribe). -/
def c3State : CWState := ⟨none, [("tokA", {})], [("tokA", 5)], true, true⟩

/-- A sample raw log. -/
def c3Log : LogEntry := ⟨"0xabc", [], []⟩

/-! ### Basic lemmas about the JS object model -/

lemma objKeys_nil_iff {α : Type} (m : List (String × α)) : objKeys m = [] ↔ m = [] := by
  cases m <;> simp [objKeys]

lemma objKeys_cons {α : Type} (m : List (String × α)) (t : String) (ks : List String)
    (h : objKeys m = t :: ks) : ∃ v l, m = (t, v) :: l ∧ objKeys l = ks := by
  cases m with
  | nil => simp [objKeys] at h
  | cons a l =>
    obtain ⟨x, y⟩ := a
    simp only [objKeys, List.map_cons, List.cons.injEq] at h
    exact ⟨y, l, by rw [h.1], h.2⟩

lemma lookup_isSome_iff {α : Type} (m : List (String × α)) (k : String) :
    (m.lookup k).isSome = true ↔ k ∈ objKeys m := by
  induction m with
  | nil => simp [objKeys, List.lookup]
  | cons a l ih =>
    obtain ⟨x, y⟩ := a
    by_cases h : k = x
    · simp [List.lookup, objKeys, h]
    · have hbeq : (k == x) = false := beq_eq_false_iff_ne.mpr h
      simp [List.lookup, hbeq, objKeys, h] at ih ⊢
      try exact ih

lemma objDelete_of_not_mem {α : Type} (m : List (String × α)) (k : String)
    (h : k ∉ objKeys m) : objDelete m k = m := by
  induction m with
  | nil => rfl
  | cons a l ih =>
    simp only [objKeys, List.map_cons, List.mem_cons, not_or] at h
    simp only [objDelete, List.filter_cons] at *
    rw [if_pos (by simpa using fun hh => h.1 hh.symm)]
    rw [ih (by simpa [objKeys] using h.2)]

lemma objDelete_cons_self {α : Type} (l : List (String × α)) (t : String) (v : α)
    (h : t ∉ objKeys l) : objDelete ((t, v) :: l) t = l := by
  simp only [objDelete, List.filter_cons]
  rw [if_neg (by simp)]
  exact objDelete_of_not_mem l t h

lemma objKeys_objDelete {α : Type} (m : List (String × α)) (k : String) :
    objKeys (objDelete m k) = (objKeys m).filter (fun x => x ≠ k) := by
  induction m with
  | nil => rfl
  | cons a l ih =>
    by_cases h : a.1 = k <;>
      simp [objDelete, objKeys, List.filter_cons, h] at * <;> simpa [objDelete, objKeys] using ih

lemma objKeys_map_overwrite {α : Type} (m : List (String × α)) (k : String) (v : α) :
    objKeys (List.map (fun p => if p.1 = k then (k, v) else p) m) = objKeys m := by
  induction m with
  | nil => rfl
  | cons a l ih =>
    by_cases h : a.1 = k <;> simp [objKeys, h] at * <;> exact ih

lemma objKeys_objSet {α : Type} (m : List (String × α)) (k : String) (v : α) :
    objKeys (objSet m k v) =
      if (m.lookup k).isSome then objKeys m else objKeys m ++ [k] := by
  unfold objSet
  by_cases h : (m.lookup k).isSome
  · rw [if_pos h, if_pos h, objKeys_map_overwrite]
  · rw [if_neg h, if_neg h]
    simp [objKeys]

/-! ### The error/shutdown path: unsubscribing every registered token -/

lemma unsubscribe_head (s : CWState) (t : String) (f : FilterSpec) (cb : Nat)
    (fs : List (String × FilterSpec)) (cbs : List (String × Nat))
    (hf : s.filters = (t, f) :: fs) (hcb : s.filterCallbacks = (t, cb) :: cbs)
    (htf : t ∉ objKeys fs) (htc : t ∉ objKeys cbs)
    (hstr : s.blockAndLogStreamer = true) (err : Option Err) :
    _unsubscribe s t err =
      .ok ((if fs.isEmpty
            then ({ s with filters := fs, filterCallbacks := cbs,
                           blockAndLogStreamer := false, intervalActive := false } : CWState)
            else { s with filters := fs, filterCallbacks := cbs }),
           match err with
           | none => ([] : List Dispatch)
           | some e => [⟨cb, some e, none⟩]) := by
  have hlf : s.filters.lookup t = some f := by rw [hf]; simp [List.lookup]
  have hlc : s.filterCallbacks.lookup t = some cb := by rw [hcb]; simp [List.lookup]
  have hdf : objDelete s.filters t = fs := by rw [hf]; exact objDelete_cons_self _ _ _ htf
  have hdc : objDelete s.filterCallbacks t = cbs := by
    rw [hcb]; exact objDelete_cons_self _ _ _ htc
  unfold _unsubscribe stopBlockAndLogStream
  rw [hlf]
  cases err with
  | none =>
    by_cases hfs : fs.isEmpty <;> simp [hdf, hdc, hfs, hstr]
  | some e =>
    rw [hlc]
    by_cases hfs : fs.isEmpty <;> simp [hdf, hdc, hfs, hstr]

lemma unsubscribeMany_keys (err : Option Err) :
    ∀ (cbs : List (String × Nat)) (s : CWState), s.filterCallbacks = cbs → WF s →
      unsubscribeMany s (objKeys cbs) err =
        .ok (⟨s.abiDecoder, [], [], false, false⟩,
             match err with
             | none => []
             | some e => cbs.map (fun p => (⟨p.2, some e, none⟩ : Dispatch))) := by
  intro cbs
  induction cbs with
  | nil =>
    intro s hcb hwf
    obtain ⟨hcoh, hnd, hiff, hint⟩ := hwf
    have hfl : s.filters = [] := (objKeys_nil_iff s.filters).mp (by rw [hcoh, hcb]; rfl)
    have hb : s.blockAndLogStreamer = false := by
      cases hB : s.blockAndLogStreamer
      · rfl
      · exact absurd (hiff.mp hB) (by simp [hfl])
    have hi : s.intervalActive = false := by rw [hint, hb]
    have hs : s = ⟨s.abiDecoder, [], [], false, false⟩ := by
      cases s
      simp only [CWState.mk.injEq]
      exact ⟨trivial, hfl, hcb, hb, hi⟩
    cases err <;> simp [unsubscribeMany, objKeys] <;> exact hs
  | cons hd tl ih =>
    intro s hcb hwf
    obtain ⟨t, cb⟩ := hd
    obtain ⟨hcoh, hnd, hiff, hint⟩ := hwf
    have hkf : objKeys s.filters = t :: objKeys tl := by rw [hcoh, hcb]; rfl
    obtain ⟨f, fs, hf, hkfs⟩ := objKeys_cons _ _ _ hkf
    have hndf : t ∉ objKeys fs ∧ (objKeys fs).Nodup := by
      rw [hf] at hnd
      simpa [objKeys] using hnd
    have hntl : t ∉ objKeys tl := by rw [← hkfs]; exact hndf.1
    have hstrb : s.blockAndLogStreamer = true := hiff.mpr (by rw [hf]; simp)
    have hstep := unsubscribe_head s t f cb fs tl hf hcb hndf.1 hntl hstrb err
    have hgoal : objKeys ((t, cb) :: tl) = t :: objKeys tl := rfl
    rw [hgoal]
    by_cases hfs : fs.isEmpty
    · -- removing the head empties the registry and stops the stream
      have hfse : fs = [] := List.isEmpty_iff.mp hfs
      have htle : tl = [] := by
        have : objKeys tl = [] := by rw [← hkfs, hfse]; rfl
        cases tl with
        | nil => rfl
        | cons a l => simp [objKeys] at this
      rw [if_pos hfs] at hstep
      subst hfse htle
      cases err <;>
        simp [unsubscribeMany, hstep, objKeys]
    · have hfse : fs ≠ [] := fun h => hfs (by rw [h]; rfl)
      rw [if_neg hfs] at hstep
      have hwf1 : WF ({ s with filters := fs, filterCallbacks := tl } : CWState) := by
        refine ⟨?_, ?_, ?_, ?_⟩
        · exact hkfs
        · exact hndf.2
        · simpa [hstrb] using hfse
        · simpa using hint
      have hrec := ih ({ s with filters := fs, filterCallbacks := tl } : CWState) rfl hwf1
      cases err <;> simp [unsubscribeMany, hstep, hrec]

/-! ### Per-operation facts used by the invariant claims -/

lemma objSet_ne_nil {α : Type} (m : List (String × α)) (k : String) (v : α) :
    objSet m k v ≠ [] := by
  unfold objSet
  by_cases h : (m.lookup k).isSome
  · rw [if_pos h]
    cases m with
    | nil => simp [List.lookup] at h
    | cons a l => simp
  · rw [if_neg h]
    simp

lemma StreamInv_unsubscribe_ok (s : CWState) (hwf : WF s) (tok : String) (err : Option Err)
    (r : CWState × List Dispatch) (h : _unsubscribe s tok err = .ok r) :
    StreamInv r.1 := by
  obtain ⟨hcoh, hnd, hiff, hint⟩ := hwf
  have hne : s.filters ≠ [] := by
    intro h0
    have hl : s.filters.lookup tok = none := by rw [h0]; rfl
    unfold _unsubscribe at h
    rw [hl] at h
    exact Except.noConfusion h
  have hstr : s.blockAndLogStreamer = true := hiff.mpr hne
  unfold _unsubscribe at h
  split at h
  · simp at h
  · split at h
    · simp at h
    · split at h
      · rename_i hempty
        split at h
        · rename_i e heq
          simp [stopBlockAndLogStream, hstr] at heq
        · rename_i s2 heq
          simp [stopBlockAndLogStream, hstr] at heq
          injection h with h1
          subst h1
          rw [← heq]
          refine ⟨?_, rfl⟩
          simpa using List.isEmpty_iff.mp hempty
      · rename_i hnempty
        injection h with h1
        subst h1
        refine ⟨?_, ?_⟩
        · simp only [hstr]
          simpa using fun hemp => hnempty (by simp [hemp])
        · simpa using hint

lemma Coherent_unsubscribe_ok (s : CWState) (hc : Coherent s) (tok : String) (err : Option Err)
    (r : CWState × List Dispatch) (h : _unsubscribe s tok err = .ok r) :
    Coherent r.1 := by
  have hkeys : objKeys (objDelete s.filters tok) = objKeys (objDelete s.filterCallbacks tok) := by
    rw [objKeys_objDelete, objKeys_objDelete, hc]
  unfold _unsubscribe at h
  split at h
  · simp at h
  · split at h
    · simp at h
    · split at h
      · split at h
        · simp at h
        · rename_i s2 heq
          simp only [stopBlockAndLogStream] at heq
          split at heq
          · injection heq with h2
            injection h with h1
            subst h1
            rw [← h2]
            exact hkeys
          · simp at heq
      · injection h with h1
        subst h1
        exact hkeys

lemma Coherent_unsubscribeMany (err : Option Err) :
    ∀ (toks : List String) (s : CWState), Coherent s →
      ∀ r, unsubscribeMany s toks err = .ok r → Coherent r.1 := by
  intro toks
  induction toks with
  | nil =>
    intro s hc r h
    simp only [unsubscribeMany] at h
    injection h with h1
    subst h1
    exact hc
  | cons t ts ih =>
    intro s hc r h
    simp only [unsubscribeMany] at h
    split at h
    · simp at h
    · rename_i s1 ds heq
      split at h
      · simp at h
      · rename_i s2 ds2 heq2
        injection h with h1
        subst h1
        exact ih s1 (Coherent_unsubscribe_ok s hc t err (s1, ds) heq) (s2, ds2) heq2

lemma reconcile_ok_state (s : CWState) (hwf : WF s)
    (fh : Except Err Unit) (evs : Except Err (List (Bool × LogEntry)))
    (r : CWState × List Dispatch) (h : _reconcileBlockAsync s fh evs = .ok r) :
    r.1 = s ∨ r.1 = ⟨s.abiDecoder, [], [], false, false⟩ := by
  cases fh with
  | error e =>
    simp only [_reconcileBlockAsync] at h
    rw [unsubscribeMany_keys (some e) s.filterCallbacks s rfl hwf] at h
    injection h with h1
    subst h1
    right
    rfl
  | ok u =>
    cases u
    simp only [_reconcileBlockAsync] at h
    split at h
    · split at h
      · rw [unsubscribeMany_keys _ s.filterCallbacks s rfl hwf] at h
        injection h with h1
        subst h1
        right
        rfl
      · split at h
        · injection h with h1
          subst h1
          left
          rfl
        · split at h
          · simp at h
          · rename_i heq2
            rw [unsubscribeMany_keys _ s.filterCallbacks s rfl hwf] at heq2
            injection heq2 with h2
            injection h with h1
            subst h1
            right
            rw [(Prod.mk.injEq _ _ _ _).mp h2.symm |>.1]
    · injection h with h1
      subst h1
      left
      rfl

lemma dispatchToFilters_decoded (s : CWState) (b : Bool) (log : LogEntry) (md : MaybeDecoded)
    (hdec : _tryToDecodeLogOrNoop s log = .ok md) :
    ∀ fs : List (String × FilterSpec),
      (∀ tok, tok ∈ objKeys fs → (s.filterCallbacks.lookup tok).isSome = true) →
      dispatchToFilters s b log fs =
        (fs.filterMap (fun p =>
           if matchesFilter log p.2 then
             (s.filterCallbacks.lookup p.1).map
               (fun cb => (⟨cb, none, some ⟨md, b⟩⟩ : Dispatch))
           else none), none) := by
  intro fs
  induction fs with
  | nil => intro _; rfl
  | cons p rest ih =>
    intro hcb
    obtain ⟨tok, f⟩ := p
    have hrest := ih (fun tk hk =>
      hcb tk (show tk ∈ tok :: objKeys rest from List.mem_cons_of_mem _ hk))
    by_cases hm : matchesFilter log f = true
    · have hsome := hcb tok (show tok ∈ tok :: objKeys rest from List.mem_cons_self _ _)
      obtain ⟨cb, hcb0⟩ := Option.isSome_iff_exists.mp hsome
      simp [dispatchToFilters, hm, hdec, hcb0, hrest, List.filterMap_cons]
    · simp [dispatchToFilters, hm, hrest, List.filterMap_cons]

lemma dispatchToFilters_noDecoder (s : CWState) (b : Bool) (log : LogEntry)
    (hnd : s.abiDecoder = none) :
    ∀ fs : List (String × FilterSpec),
      (∃ p, p ∈ fs ∧ matchesFilter log p.2 = true) →
      dispatchToFilters s b log fs = ([], some .noAbiDecoder) := by
  intro fs
  induction fs with
  | nil =>
    intro h
    obtain ⟨p, hp, _⟩ := h
    simp at hp
  | cons q rest ih =>
    intro h
    obtain ⟨tok, f⟩ := q
    by_cases hm : matchesFilter log f = true
    · simp [dispatchToFilters, hm, _tryToDecodeLogOrNoop, hnd]
    · have hex : ∃ p, p ∈ rest ∧ matchesFilter log p.2 = true := by
        obtain ⟨p, hp, hpm⟩ := h
        rcases List.mem_cons.mp hp with h1 | h2
        · rw [h1] at hpm
          exact absurd hpm hm
        · exact ⟨p, h2, hpm⟩
      simp [dispatchToFilters, hm, ih hex]

lemma StreamInv_subscribe (s : CWState) (hwf : WF s) (f : FilterSpec) (tok : String) (cb : Nat) :
    StreamInv (_subscribe s f tok cb).1 := by
  obtain ⟨hcoh, hnd, hiff, hint⟩ := hwf
  unfold _subscribe startBlockAndLogStream
  by_cases hb : s.blockAndLogStreamer = true
  · constructor
    · simp [hb, objSet_ne_nil]
    · simp [hb, hint]
  · constructor
    · simp [hb, objSet_ne_nil]
    · simp [hb]

lemma Coherent_objSet {α β : Type} (m1 : List (String × α)) (m2 : List (String × β))
    (hk : objKeys m1 = objKeys m2) (k : String) (v1 : α) (v2 : β) :
    objKeys (objSet m1 k v1) = objKeys (objSet m2 k v2) := by
  rw [objKeys_objSet, objKeys_objSet]
  have hiff2 : (m1.lookup k).isSome = true ↔ (m2.lookup k).isSome = true := by
    rw [lookup_isSome_iff, lookup_isSome_iff, hk]
  by_cases h1 : (m1.lookup k).isSome = true
  · rw [if_pos h1, if_pos (hiff2.mp h1), hk]
  · rw [if_neg h1, if_neg (fun hh => h1 (hiff2.mpr hh)), hk]

lemma Coherent_subscribe (s : CWState) (hc : Coherent s) (f : FilterSpec) (tok : String) (cb : Nat) :
    Coherent (_subscribe s f tok cb).1 := by
  unfold _subscribe
  split <;> exact Coherent_objSet _ _ hc tok f cb

/-! ### Theorems for the easy claims -/

/-- **C1**: when a poll tick fails — the head fetch throws, or the
reconciliation/per-block log fetch throws while the streamer is live — the
`catch` of `_reconcileBlockAsync` invokes every currently registered
subscription's callback exactly once with the failure as error and no event
(the dispatch list is exactly the callbacks map, in order), after which both
registry maps are empty, the streamer is deleted and the poll interval is
cleared; the tick returns without retrying. -/
theorem tick_failure_clears_registry (s : CWState) (e : Err)
    (evs : Except Err (List (Bool × LogEntry))) (hwf : WF s) :
    _reconcileBlockAsync s (.error e) evs =
      .ok (⟨s.abiDecoder, [], [], false, false⟩,
           s.filterCallbacks.map (fun p => (⟨p.2, some e, none⟩ : Dispatch))) ∧
    (s.blockAndLogStreamer = true →
      _reconcileBlockAsync s (.ok ()) (.error e) =
        .ok (⟨s.abiDecoder, [], [], false, false⟩,
             s.filterCallbacks.map (fun p => (⟨p.2, some e, none⟩ : Dispatch)))) := by
  have h := unsubscribeMany_keys (some e) s.filterCallbacks s rfl hwf
  constructor
  · simpa [_reconcileBlockAsync] using h
  · intro hb
    simpa [_reconcileBlockAsync, hb] using h

/-- **C7**: once the registry is empty and polling is stopped (streamer
undefined), a manual invocation of the tick body is a no-op for every
fetch outcome: no callback is dispatched and the state is unchanged — the
mid-tick teardown check on `_blockAndLogStreamer` skips reconciliation. -/
theorem tick_noop_after_teardown (s : CWState)
    (hfl : s.filters = []) (hcb : s.filterCallbacks = [])
    (hstr : s.blockAndLogStreamer = false) (hint : s.intervalActive = false) :
    ∀ (fetchHead : Except Err Unit) (streamEvents : Except Err (List (Bool × LogEntry))),
      _reconcileBlockAsync s fetchHead streamEvents = .ok (s, []) := by
  intro fh evs
  cases fh with
  | error e => simp [_reconcileBlockAsync, hcb, unsubscribeMany, objKeys]
  | ok _ => simp [_reconcileBlockAsync, hstr]

/-- **C8**: `unsubscribeAll` succeeds on every well-formed state: it removes
every registered subscription without invoking any subscriber callback (the
dispatch list is empty), leaves both maps empty with the stream stopped, and
is a no-op when no subscription exists. -/
theorem unsubscribeAll_clears (s : CWState) (hwf : WF s) :
    unsubscribeAll s = .ok (⟨s.abiDecoder, [], [], false, false⟩, []) ∧
    (s.filters = [] → unsubscribeAll s = .ok (s, [])) := by
  have h := unsubscribeMany_keys none s.filterCallbacks s rfl hwf
  obtain ⟨hcoh, hnd, hiff, hint⟩ := hwf
  constructor
  · exact h
  · intro hfl
    have hcb : s.filterCallbacks = [] :=
      (objKeys_nil_iff s.filterCallbacks).mp (by rw [← hcoh, hfl]; rfl)
    have hb : s.blockAndLogStreamer = false := by
      cases hB : s.blockAndLogStreamer
      · rfl
      · exact absurd (hiff.mp hB) (by simp [hfl])
    have hi : s.intervalActive = false := by rw [hint, hb]
    have hs : s = ⟨s.abiDecoder, [], [], false, false⟩ := by
      cases s
      simp only [CWState.mk.injEq]
      exact ⟨trivial, hfl, hcb, hb, hi⟩
    have h2 : unsubscribeAll s = .ok (⟨s.abiDecoder, [], [], false, false⟩, []) := h
    rw [h2]
    exact congrArg (fun st => Except.ok (st, ([] : List Dispatch))) hs.symm

/-- **C10**: the faucet request queue's `add` refuses and leaves the queue
unchanged when 500 or more entries are held, appends at the tail and returns
`true` when fewer than 500 are held, and never grows the queue beyond 500
entries. -/
theorem requestQueue_add_capacity (q : RequestQueue) (a : String) :
    (q.size ≥ MAX_QUEUE_SIZE → RequestQueue.add q a = (q, false)) ∧
    (q.size < MAX_QUEUE_SIZE →
      RequestQueue.add q a = (⟨q.queue ++ [a]⟩, true)) ∧
    (q.size ≤ MAX_QUEUE_SIZE → (RequestQueue.add q a).1.size ≤ MAX_QUEUE_SIZE) := by
  refine ⟨fun h => ?_, fun h => ?_, fun h => ?_⟩
  · simp [RequestQueue.add, RequestQueue.isFull, h]
  · simp [RequestQueue.add, RequestQueue.isFull, Nat.not_le.mpr h]
  · by_cases hf : q.size ≥ MAX_QUEUE_SIZE
    · simp [RequestQueue.add, RequestQueue.isFull, hf, h]
    · have hlt := Nat.not_le.mp hf
      simp only [RequestQueue.add, RequestQueue.isFull, decide_eq_true_eq, hf, if_false]
      simpa [RequestQueue.size] using hlt

theorem requestQueue_add_capacity_witness :
    ((⟨[]⟩ : RequestQueue).size < MAX_QUEUE_SIZE) ∧
      RequestQueue.add ⟨[]⟩ "0xabc" = (⟨["0xabc"]⟩, true) :=
  ⟨by decide, (requestQueue_add_capacity ⟨[]⟩ "0xabc").2.1 (by decide)⟩

/-- **C4**: unsubscribing a token that is not in the registry throws
`SubscriptionNotFound` synchronously; the call produces no successor state
and no dispatch (the source throws before any mutation, and the embedding
returns states only on success), so the registry, the other subscriptions and
the polling stream are untouched. -/
theorem unsubscribe_not_found (s : CWState) (tok : String) (err : Option Err)
    (h : tok ∉ objKeys s.filters) :
    _unsubscribe s tok err = .error .subscriptionNotFound := by
  have hl : s.filters.lookup tok = none := by
    cases hx : s.filters.lookup tok with
    | none => rfl
    | some v => exact absurd ((lookup_isSome_iff s.filters tok).mp (by rw [hx]; rfl)) h
  unfold _unsubscribe
  rw [hl]

theorem unsubscribe_not_found_witness :
    ("tok" ∉ objKeys (initialState none).filters) ∧
      _unsubscribe (initialState none) "tok" none = .error .subscriptionNotFound :=
  ⟨by decide, unsubscribe_not_found (initialState none) "tok" none (by decide)⟩

/-- **C6**: in the spec-modelled timer machinery of
`setAsyncExcludingInterval`, at most one tick is ever in flight along any
sequence of timer events, and a timer interval that elapses while a tick is
in flight is skipped (it changes nothing) rather than queued. -/
theorem at_most_one_tick_in_flight :
    (∀ es : List TickEvent, inFlightAfter 0 es ≤ 1) ∧
    (∀ (n : Nat) (es : List TickEvent),
      inFlightAfter (n + 1) (.timerFires :: es) = inFlightAfter (n + 1) es) := by
  constructor
  · have key : ∀ (es : List TickEvent) (n : Nat), n ≤ 1 → inFlightAfter n es ≤ 1 := by
      intro es
      induction es with
      | nil => intro n h; simpa [inFlightAfter] using h
      | cons e rest ih =>
        intro n h
        cases e with
        | timerFires =>
          cases n with
          | zero => exact ih 1 le_rfl
          | succ m => simpa [inFlightAfter] using ih (m + 1) h
        | tickCompletes => exact ih (n - 1) (le_trans (Nat.sub_le n 1) h)
    exact fun es => key es 0 (by omega)
  · intro n es
    simp [inFlightAfter]

/-- **C2**: on every well-formed state, each public operation — subscribe,
unsubscribe, unsubscribeAll, and the poll tick — leaves the stream/timer
invariant intact: the streamer and its timer are active exactly when at
least one subscription is registered (subscribing into an empty registry
starts the stream, the removal that empties the registry stops it). -/
theorem poll_active_iff_subscribed (s : CWState) (hwf : WF s) :
    (∀ f tok cb, StreamInv (_subscribe s f tok cb).1) ∧
    (∀ tok err r, _unsubscribe s tok err = .ok r → StreamInv r.1) ∧
    (∀ r, unsubscribeAll s = .ok r → StreamInv r.1) ∧
    (∀ fh evs r, _reconcileBlockAsync s fh evs = .ok r → StreamInv r.1) := by
  refine ⟨fun f tok cb => StreamInv_subscribe s hwf f tok cb,
          fun tok err r h => StreamInv_unsubscribe_ok s hwf tok err r h,
          fun r h => ?_, fun fh evs r h => ?_⟩
  · have h2 : unsubscribeAll s = .ok (⟨s.abiDecoder, [], [], false, false⟩, []) :=
      unsubscribeMany_keys none s.filterCallbacks s rfl hwf
    rw [h2] at h
    injection h with h1
    subst h1
    exact ⟨by simp, rfl⟩
  · rcases reconcile_ok_state s hwf fh evs r h with h1 | h1 <;> rw [h1]
    · exact hwf.2.2
    · exact ⟨by simp, rfl⟩

/-- **C9**: the filters map and the callbacks map always hold exactly the
same set of tokens: the constructor starts them equal, and subscribe,
unsubscribe, unsubscribeAll and the poll tick each preserve key-set
equality (both maps are always updated under the same token). -/
theorem registry_maps_coherent :
    (∀ d, Coherent (initialState d)) ∧
    (∀ s, Coherent s → ∀ f tok cb, Coherent (_subscribe s f tok cb).1) ∧
    (∀ s, Coherent s → ∀ tok err r, _unsubscribe s tok err = .ok r → Coherent r.1) ∧
    (∀ s, Coherent s → ∀ r, unsubscribeAll s = .ok r → Coherent r.1) ∧
    (∀ s, Coherent s → ∀ fh evs r, _reconcileBlockAsync s fh evs = .ok r → Coherent r.1) := by
  refine ⟨fun d => rfl, fun s hc f tok cb => Coherent_subscribe s hc f tok cb,
          fun s hc tok err r h => Coherent_unsubscribe_ok s hc tok err r h,
          fun s hc r h => Coherent_unsubscribeMany none _ s hc r h,
          fun s hc fh evs r h => ?_⟩
  cases fh with
  | error e =>
    simp only [_reconcileBlockAsync] at h
    exact Coherent_unsubscribeMany _ _ s hc r h
  | ok u =>
    cases u
    simp only [_reconcileBlockAsync] at h
    split at h
    · split at h
      · exact Coherent_unsubscribeMany _ _ s hc r h
      · split at h
        · injection h with h1
          subst h1
          exact hc
        · split at h
          · simp at h
          · rename_i s2 ds2 heq2
            injection h with h1
            subst h1
            exact Coherent_unsubscribeMany _ _ s hc (s2, ds2) heq2
    · injection h with h1
      subst h1
      exact hc

/-- **C5**: during a successful tick (the decode of the delivered log
returns `md` rather than throwing), each stream handler invokes, for every
registered filter the log matches, exactly that filter's callback with
`error = none` and `event = {log := md, isRemoved}`, where `isRemoved` is
`false` for logs arriving on the onLogAdded stream and `true` for logs
arriving on the onLogRemoved stream; filters the log does not match get
nothing and no error escapes. -/
theorem matched_log_dispatch (s : CWState) (log : LogEntry) (md : MaybeDecoded)
    (hdec : _tryToDecodeLogOrNoop s log = .ok md)
    (hcb : ∀ tok, tok ∈ objKeys s.filters → (s.filterCallbacks.lookup tok).isSome = true) :
    onLogAddedHandler s log =
      (s.filters.filterMap (fun p =>
         if matchesFilter log p.2 then
           (s.filterCallbacks.lookup p.1).map
             (fun cb => (⟨cb, none, some ⟨md, false⟩⟩ : Dispatch))
         else none), none) ∧
    onLogRemovedHandler s log =
      (s.filters.filterMap (fun p =>
         if matchesFilter log p.2 then
           (s.filterCallbacks.lookup p.1).map
             (fun cb => (⟨cb, none, some ⟨md, true⟩⟩ : Dispatch))
         else none), none) :=
  ⟨dispatchToFilters_decoded s false log md hdec s.filters hcb,
   dispatchToFilters_decoded s true log md hdec s.filters hcb⟩

/-- **C3, counterexample**: with no `_abiDecoder` registered (the decode
path unavailable) and a subscription whose filter matches the log, the
dispatch loop delivers nothing — the subscriber does *not* receive the
undecoded record — and the `NoAbiDecoder` throw aborts the loop, contrary
to the claim that a decode failure degrades to delivering the undecoded
record and never prevents dispatch. -/
theorem decode_unavailable_counterexample :
    matchesFilter c3Log ({} : FilterSpec) = true ∧
    _onLogStateChanged c3State false c3Log = ([], some .noAbiDecoder) := by
  constructor
  · rfl
  · rfl

/-- **C3, amended**: when an `AbiDecoder` is registered and the matched
record's topic-0 signature has no entry in the decoder table, every
subscriber whose filter matches receives the undecoded record (error =
`none`) and the loop dispatches to all other filters; but when the decode
path is unavailable (`_abiDecoder` undefined), `_tryToDecodeLogOrNoop`
throws `NoAbiDecoder` at the first matching filter and the dispatch loop
aborts with no record delivered. -/
theorem decode_degradation_amended (s : CWState) (b : Bool) (log : LogEntry)
    (hcb : ∀ tok, tok ∈ objKeys s.filters → (s.filterCallbacks.lookup tok).isSome = true) :
    (∀ d : AbiDecoder, s.abiDecoder = some d →
      (log.topics.head?.bind (fun sig => d.lookup sig)) = none →
      _onLogStateChanged s b log =
        (s.filters.filterMap (fun p =>
           if matchesFilter log p.2 then
             (s.filterCallbacks.lookup p.1).map
               (fun cb => (⟨cb, none, some ⟨.raw log, b⟩⟩ : Dispatch))
           else none), none)) ∧
    (s.abiDecoder = none →
      (∃ p, p ∈ s.filters ∧ matchesFilter log p.2 = true) →
      _onLogStateChanged s b log = ([], some .noAbiDecoder)) := by
  constructor
  · intro d hd hsig
    have hdec : _tryToDecodeLogOrNoop s log = .ok (.raw log) := by
      unfold _tryToDecodeLogOrNoop abiTryToDecodeLogOrNoop
      rw [hd]
      cases hh : log.topics.head? with
      | none => rfl
      | some sig =>
        rw [hh] at hsig
        have hl : d.lookup sig = none := hsig
        simp [hl]
    exact dispatchToFilters_decoded s b log _ hdec s.filters hcb
  · intro hnd hex
    exact dispatchToFilters_noDecoder s b log hnd s.filters hex

theorem tick_failure_clears_registry_witness :
    WF (⟨none, [("a", {})], [("a", 7)], true, true⟩ : CWState) ∧
    _reconcileBlockAsync ⟨none, [("a", {})], [("a", 7)], true, true⟩
        (.error .nodeUnavailable) (.ok []) =
      .ok (⟨none, [], [], false, false⟩, [⟨7, some .nodeUnavailable, none⟩]) :=
  ⟨by decide,
   (tick_failure_clears_registry ⟨none, [("a", {})], [("a", 7)], true, true⟩
     .nodeUnavailable (.ok []) (by decide)).1⟩

theorem poll_active_iff_subscribed_witness :
    WF (initialState none) ∧ StreamInv (_subscribe (initialState none) {} "a" 7).1 :=
  ⟨by decide, (poll_active_iff_subscribed (initialState none) (by decide)).1 {} "a" 7⟩

theorem decode_degradation_amended_witness :
    (∀ tok, tok ∈ objKeys (⟨some [], [("a", {})], [("a", 3)], true, true⟩ : CWState).filters →
      (((⟨some [], [("a", {})], [("a", 3)], true, true⟩ : CWState).filterCallbacks.lookup
          tok).isSome = true)) ∧
    _onLogStateChanged ⟨some [], [("a", {})], [("a", 3)], true, true⟩ false ⟨"0x", [], []⟩ =
      ([⟨3, none, some ⟨.raw ⟨"0x", [], []⟩, false⟩⟩], none) ∧
    _onLogStateChanged ⟨none, [("a", {})], [("a", 3)], true, true⟩ false ⟨"0x", [], []⟩ =
      ([], some .noAbiDecoder) := by
  refine ⟨by decide, ?_, ?_⟩
  · exact (decode_degradation_amended ⟨some [], [("a", {})], [("a", 3)], true, true⟩
      false ⟨"0x", [], []⟩ (by decide)).1 [] rfl rfl
  · exact (decode_degradation_amended ⟨none, [("a", {})], [("a", 3)], true, true⟩
      false ⟨"0x", [], []⟩ (by decide)).2 rfl ⟨("a", {}), by decide, rfl⟩

theorem unsubscribeAll_clears_witness :
    WF (⟨none, [("a", {})], [("a", 7)], true, true⟩ : CWState) ∧
    unsubscribeAll ⟨none, [("a", {})], [("a", 7)], true, true⟩ =
      .ok (⟨none, [], [], false, false⟩, []) :=
  ⟨by decide,
   (unsubscribeAll_clears ⟨none, [("a", {})], [("a", 7)], true, true⟩ (by decide)).1⟩

theorem tick_noop_after_teardown_witness :
    _reconcileBlockAsync (initialState none) (.error .nodeUnavailable) (.ok []) =
      .ok (initialState none, []) ∧
    _reconcileBlockAsync (initialState none) (.ok ()) (.ok [(false, ⟨"0x", [], []⟩)]) =
      .ok (initialState none, []) :=
  ⟨tick_noop_after_teardown (initialState none) rfl rfl rfl rfl
     (.error .nodeUnavailable) (.ok []),
   tick_noop_after_teardown (initialState none) rfl rfl rfl rfl
     (.ok ()) (.ok [(false, ⟨"0x", [], []⟩)])⟩

theorem matched_log_dispatch_witness :
    _tryToDecodeLogOrNoop ⟨some [], [("a", {})], [("a", 3)], true, true⟩ ⟨"0x", [], []⟩ =
      .ok (.raw ⟨"0x", [], []⟩) ∧
    onLogAddedHandler ⟨some [], [("a", {})], [("a", 3)], true, true⟩ ⟨"0x", [], []⟩ =
      ([⟨3, none, some ⟨.raw ⟨"0x", [], []⟩, false⟩⟩], none) ∧
    onLogRemovedHandler ⟨some [], [("a", {})], [("a", 3)], true, true⟩ ⟨"0x", [], []⟩ =
      ([⟨3, none, some ⟨.raw ⟨"0x", [], []⟩, true⟩⟩], none) := by
  refine ⟨rfl, ?_, ?_⟩
  · exact (matched_log_dispatch ⟨some [], [("a", {})], [("a", 3)], true, true⟩ ⟨"0x", [], []⟩
      (.raw ⟨"0x", [], []⟩) rfl (by decide)).1
  · exact (matched_log_dispatch ⟨some [], [("a", {})], [("a", 3)], true, true⟩ ⟨"0x", [], []⟩
      (.raw ⟨"0x", [], []⟩) rfl (by decide)).2

theorem registry_maps_coherent_witness :
    Coherent (initialState none) ∧ Coherent (_subscribe (initialState none) {} "a" 7).1 :=
  ⟨registry_maps_coherent.1 none,
   registry_maps_coherent.2.1 (initialState none) (by decide) {} "a" 7⟩
